import Mathlib

/-!
Verification of the plugin-generation backend (`src/main.py`).

The Python source is shallowly embedded: strings are Lean `String`s, the
ZIP archive is modelled as the ordered list of written entries
(`path × content`), the MongoDB collection as an association list of
`(id, document)` pairs, and each FastAPI endpoint as a pure function
returning `Except ApiError _`.  Python string operations used by the
source (`str.strip`, `str.capitalize`, `str.lower`, `x or y` truthiness)
are modelled explicitly below.
-/

/-- Model of Python `str.strip()`: drop whitespace from both ends. -/
def pythonStrip (s : String) : String :=
  ⟨((s.data.dropWhile Char.isWhitespace).reverse.dropWhile Char.isWhitespace).reverse⟩

/-- Model of Python `str.capitalize()`: first character uppercased, all
remaining characters lowercased. -/
def pythonCapitalize (s : String) : String :=
  match s.data with
  | [] => ""
  | c :: cs => ⟨c.toUpper :: cs.map Char.toLower⟩

/-- Model of Python `str.lower()`. -/
def pythonLower (s : String) : String :=
  ⟨s.data.map Char.toLower⟩

/-- Model of Python `s.replace('.', '/')` (single-character replacement). -/
def dotsToSlashes (s : String) : String :=
  ⟨s.data.map fun c => if c = '.' then '/' else c⟩

/-- Model of Python `s.replace(' ', '-')` (single-character replacement). -/
def spacesToHyphens (s : String) : String :=
  ⟨s.data.map fun c => if c = ' ' then '-' else c⟩

/-- Model of Python `a or b` where `a` is an optional string: `None` and
the empty string are falsy. -/
def pythonOr (a : Option String) (b : String) : String :=
  match a with
  | none => b
  | some s => if s = "" then b else s

/-- `CommandSpec` pydantic model (src/main.py lines 25-28). -/
structure CommandSpec where
  name : String
  usage : Option String
  description : Option String
deriving DecidableEq

/-- `GenerateRequest` pydantic model (src/main.py lines 30-35). -/
structure GenerateRequest where
  plugin_name : String
  package_name : String
  description : String
  api : String
  commands : List CommandSpec
deriving DecidableEq

/-- The lines appended to the manifest for one command by a single
iteration of the loop in `_plugin_yml` (src/main.py lines 48-57); a
command whose stripped name is empty is skipped (`continue`), i.e.
contributes no lines. -/
def pluginYmlCmdLines (cmd : CommandSpec) : List String :=
  let cname := pythonStrip cmd.name
  if cname = "" then []
  else
    ["  " ++ cname ++ ":"]
    ++ (match cmd.description with
        | some d => if d = "" then [] else ["    description: " ++ d]
        | none => [])
    ++ ["    usage: /" ++ cname,
        "    permission: replix." ++ cname,
        "    permission-message: You don\x27t have permission to use this command."]

/-- `_plugin_yml` (src/main.py lines 38-58): renders the manifest. -/
def _plugin_yml (name : String) (main_class : String) (description : String)
    (commands : List CommandSpec) : String :=
  let lines := ["name: " ++ name,
                "version: 1.0.0",
                "api-version: \x271.20\x27",
                "main: " ++ main_class,
                "description: " ++ (if description = "" then name else description)]
  let lines :=
    if commands = [] then lines
    else commands.foldl (fun acc cmd => acc ++ pluginYmlCmdLines cmd) (lines ++ ["commands:"])
  String.intercalate "\n" lines ++ "\n"

/-- The `imports_cmds` list built in `_main_java` (src/main.py lines 65-67):
one import per command whose (unstripped) name is non-empty. -/
def mainImportLines (package_name : String) (commands : List CommandSpec) : List String :=
  (commands.filter fun c => c.name != "").map fun c =>
    "import " ++ package_name ++ ".commands." ++ pythonCapitalize c.name ++ "Command;"

/-- The `register_cmds` list built in `_main_java` (src/main.py lines 62-64):
one registration per command whose (unstripped) name is non-empty. -/
def mainRegisterLines (commands : List CommandSpec) : List String :=
  (commands.filter fun c => c.name != "").map fun c =>
    "        this.getCommand(\"" ++ c.name ++ "\").setExecutor(new "
      ++ pythonCapitalize c.name ++ "Command());"

/-- `_main_java` (src/main.py lines 61-87): renders the main entry class.
The surrounding f-string is `.strip()`ped and a final newline appended,
which removes exactly the leading and trailing newline of the template. -/
def _main_java (package_name : String) (class_name : String) (description : String)
    (commands : List CommandSpec) : String :=
  let register_cmds := String.intercalate "\n" (mainRegisterLines commands)
  let imports_cmds := String.intercalate "\n" (mainImportLines package_name commands)
  "package " ++ package_name ++ ";\n\nimport org.bukkit.plugin.java.JavaPlugin;\n"
    ++ imports_cmds
    ++ "\n\npublic class " ++ class_name ++ " extends JavaPlugin \x7b\n\n    @Override\n    public void onEnable() \x7b\n        getLogger().info(\""
    ++ (if description = "" then class_name else description)
    ++ " enabled!\");\n"
    ++ register_cmds
    ++ "\n    \x7d\n\n    @Override\n    public void onDisable() \x7b\n        getLogger().info(\""
    ++ class_name
    ++ " disabled!\");\n    \x7d\n\x7d\n"

/-- `_command_java` (src/main.py lines 90-108): renders one command handler. -/
def _command_java (package_name : String) (cmd : CommandSpec) : String :=
  let class_name := pythonCapitalize cmd.name ++ "Command"
  let message := pythonOr cmd.description ("/" ++ cmd.name ++ " executed!")
  "package " ++ package_name ++ ".commands;\n\nimport org.bukkit.command.Command;\nimport org.bukkit.command.CommandExecutor;\nimport org.bukkit.command.CommandSender;\n\npublic class "
    ++ class_name
    ++ " implements CommandExecutor \x7b\n\n    @Override\n    public boolean onCommand(CommandSender sender, Command command, String label, String[] args) \x7b\n        sender.sendMessage(\""
    ++ message
    ++ "\");\n        return true;\n    \x7d\n\x7d\n"

/-- Error taxonomy of the service: the `HTTPException`s raised by
src/main.py (400 package validation, 400 invalid id, 404 not found,
500 database not available). -/
inductive ApiError where
  | validation
  | invalidId
  | notFound
  | storageUnavailable
deriving DecidableEq

/-- The `pom.xml` content built in `build_plugin_zip` (src/main.py
lines 138-180); interpolates the stripped package name, the slugified
plugin name, the plugin name and the description. -/
def pomXml (pkg : String) (plugin_name : String) (description : String) : String :=
  "<project xmlns=\"http://maven.apache.org/POM/4.0.0\" xmlns:xsi=\"http://www.w3.org/2001/XMLSchema-instance\"\n    xsi:schemaLocation=\"http://maven.apache.org/POM/4.0.0 http://maven.apache.org/xsd/maven-4.0.0.xsd\">\n  <modelVersion>4.0.0</modelVersion>\n  <groupId>"
    ++ pkg
    ++ "</groupId>\n  <artifactId>"
    ++ spacesToHyphens (pythonLower plugin_name)
    ++ "</artifactId>\n  <version>1.0.0</version>\n  <name>"
    ++ plugin_name
    ++ "</name>\n  <description>"
    ++ description
    ++ "</description>\n  <build>\n    <sourceDirectory>src/main/java</sourceDirectory>\n    <plugins>\n      <plugin>\n        <groupId>org.apache.maven.plugins</groupId>\n        <artifactId>maven-compiler-plugin</artifactId>\n        <version>3.11.0</version>\n        <configuration>\n          <source>17</source>\n          <target>17</target>\n        </configuration>\n      </plugin>\n    </plugins>\n  </build>\n  <dependencies>\n    <dependency>\n      <groupId>org.spigotmc</groupId>\n      <artifactId>spigot-api</artifactId>\n      <version>1.20.1-R0.1-SNAPSHOT</version>\n      <scope>provided</scope>\n    </dependency>\n  </dependencies>\n  <repositories>\n    <repository>\n      <id>spigot-repo</id>\n      <url>https://hub.spigotmc.org/nexus/content/repositories/snapshots/</url>\n    </repository>\n    <repository>\n      <id>sonatype</id>\n      <url>https://oss.sonatype.org/content/groups/public/</url>\n    </repository>\n  </repositories>\n</project>\n"

/-- The handler entries written by the command loop of `build_plugin_zip`
(src/main.py lines 131-135): one entry per command with non-empty
stripped name, path under `commands/` of the source root, in input
order (the `if not cname: continue` skip is the filter). -/
def commandEntries (pkg : String) (commands : List CommandSpec) : List (String × String) :=
  let java_path := "src/main/java/" ++ dotsToSlashes pkg ++ "/"
  let commands_pkg_path := java_path ++ "commands/"
  (commands.filter fun c => pythonStrip c.name != "").map fun cmd =>
    (commands_pkg_path ++ pythonCapitalize (pythonStrip cmd.name) ++ "Command.java",
     _command_java pkg cmd)

/-- The generated entries (manifest, main entry, handlers) written by
`build_plugin_zip` (src/main.py lines 122-135), in write order.  The
`if req.commands:` guard of the source is kept as the `if` below. -/
def zipGeneratedEntries (req : GenerateRequest) : List (String × String) :=
  let pkg := pythonStrip req.package_name
  let main_class_name := "Main"
  let full_main_class := pkg ++ "." ++ main_class_name
  let java_path := "src/main/java/" ++ dotsToSlashes pkg ++ "/"
  ("plugin.yml", _plugin_yml req.plugin_name full_main_class req.description req.commands)
    :: (java_path ++ main_class_name ++ ".java",
        _main_java pkg main_class_name req.description req.commands)
    :: (if req.commands = [] then [] else commandEntries pkg req.commands)

/-- The fixed entries written at the end of `build_plugin_zip`
(src/main.py lines 137-184): build descriptor and ignore file. -/
def fixedEntries (req : GenerateRequest) : List (String × String) :=
  let pkg := pythonStrip req.package_name
  [("pom.xml", pomXml pkg req.plugin_name req.description),
   (".gitignore", ".idea\n*.iml\n*.class\n/target\n")]

/-- `build_plugin_zip` (src/main.py lines 111-186).  The ZIP payload is
modelled as the ordered list of entries written to the archive
(duplicate paths stay as distinct entries, as in a ZIP container).
Raises the 400 validation error when the stripped package name is empty
or contains no dot, before any entry is produced. -/
def build_plugin_zip (req : GenerateRequest) : Except ApiError (List (String × String)) :=
  let pkg := pythonStrip req.package_name
  if pkg = "" ∨ '.' ∉ pkg.data then .error .validation
  else .ok (zipGeneratedEntries req ++ fixedEntries req)

/-- A persisted generation document, as assembled in `generate_plugin`
(src/main.py lines 202-216).  `created_at`/`updated_at` timestamps are
abstracted as naturals; the ZIP binary is the entry list. -/
structure GenerationDoc where
  plugin_name : String
  package_name : String
  description : String
  api : String
  commands : List CommandSpec
  files : List String
  archive_size : Nat
  created_at : Nat
  updated_at : Nat
  zip : List (String × String)
deriving DecidableEq

/-- The MongoDB `generation` collection, modelled as an association list
of `(ObjectId string, document)` pairs; the newest insert is consed at
the front (lookup is by exact id so physical order is irrelevant to
`find_one`, and `history` sorts explicitly). -/
structure DB where
  docs : List (String × GenerationDoc)
deriving DecidableEq

/-- Abstraction of `len(zip_bytes)`: total size of the archive's entry
contents. -/
def archiveSize (es : List (String × String)) : Nat :=
  (es.map fun e => e.2.length).sum

/-- The `files` list stored in the record by `generate_plugin`
(src/main.py lines 208-211).  Note: it uses the raw (unstripped)
`req.package_name` and filters commands by the raw `c.name` truthiness,
capitalizing the raw name. -/
def files_list (req : GenerateRequest) : List String :=
  ["plugin.yml",
   "src/main/java/" ++ dotsToSlashes req.package_name ++ "/Main.java"]
  ++ (if req.commands = [] then []
      else (req.commands.filter fun c => c.name != "").map fun c =>
        "src/main/java/" ++ dotsToSlashes req.package_name ++ "/commands/"
          ++ pythonCapitalize c.name ++ "Command.java")

/-- The document inserted by `generate_plugin` (src/main.py lines
202-216), with both timestamps taken at the current time `now`. -/
def generationDoc (req : GenerateRequest) (now : Nat)
    (zip_bytes : List (String × String)) : GenerationDoc :=
  { plugin_name := req.plugin_name
    package_name := req.package_name
    description := req.description
    api := req.api
    commands := req.commands
    files := files_list req
    archive_size := archiveSize zip_bytes
    created_at := now
    updated_at := now
    zip := zip_bytes }

/-- The JSON body returned by `generate_plugin` on success
(src/main.py lines 221-226). -/
structure GenResponse where
  id : String
  archive_size : Nat
  download_url : String
  message : String
deriving DecidableEq

/-- `generate_plugin` (src/main.py lines 194-226).  `db?` is the global
database handle (`None` when storage is unavailable); `inserted_id` is
the ObjectId assigned by the store for this insert; `now` the current
time.  Returns the response and the updated collection. -/
def generate_plugin (db? : Option DB) (inserted_id : String) (now : Nat)
    (req : GenerateRequest) : Except ApiError (GenResponse × DB) :=
  match db? with
  | none => .error .storageUnavailable
  | some db =>
    match build_plugin_zip req with
    | .error e => .error e
    | .ok zip_bytes =>
      let doc := generationDoc req now zip_bytes
      let gen_id := inserted_id
      .ok ({ id := gen_id,
             archive_size := archiveSize zip_bytes,
             download_url := "/api/download/" ++ gen_id,
             message := "Plugin generated successfully" },
           { docs := (gen_id, doc) :: db.docs })

/-- Hexadecimal digit as accepted by `bson.ObjectId`. -/
def isHexChar (c : Char) : Bool :=
  c.isDigit || ('a' ≤ c && c ≤ 'f') || ('A' ≤ c && c ≤ 'F')

/-- Syntactic validity of a record identifier: `bson.ObjectId(s)` on a
string succeeds exactly for 24 hexadecimal characters (external driver
semantics, modelled here; `download_plugin` catches the failure and
returns the 400 invalid-id error). -/
def isValidObjectId (s : String) : Bool :=
  s.length = 24 && s.data.all isHexChar

/-- `download_plugin` (src/main.py lines 229-246): db-availability check,
ObjectId parse, exact lookup, empty-payload check, then the bytes plus
the content-disposition filename (slugified stored plugin name + ".zip"). -/
def download_plugin (db? : Option DB) (gen_id : String) :
    Except ApiError (List (String × String) × String) :=
  match db? with
  | none => .error .storageUnavailable
  | some db =>
    if isValidObjectId gen_id then
      match db.docs.lookup gen_id with
      | none => .error .notFound
      | some doc =>
        if doc.zip = [] then .error .notFound
        else .ok (doc.zip, spacesToHyphens (pythonLower doc.plugin_name) ++ ".zip")
    else .error .invalidId

/-- A history item: the stored document with `_id` renamed to `id` and
the `zip` payload projected away (src/main.py lines 253-257,
`find({}, {"zip": 0})`). -/
structure HistoryItem where
  id : String
  plugin_name : String
  package_name : String
  description : String
  api : String
  commands : List CommandSpec
  files : List String
  archive_size : Nat
  created_at : Nat
  updated_at : Nat
deriving DecidableEq

/-- Projection `{"zip": 0}` plus `it["id"] = str(it.pop("_id"))`. -/
def stripZip (p : String × GenerationDoc) : HistoryItem :=
  { id := p.1
    plugin_name := p.2.plugin_name
    package_name := p.2.package_name
    description := p.2.description
    api := p.2.api
    commands := p.2.commands
    files := p.2.files
    archive_size := p.2.archive_size
    created_at := p.2.created_at
    updated_at := p.2.updated_at }

/-- Insertion step of the descending-by-`created_at` sort (model of the
external `sort("created_at", -1)`). -/
def insertDesc (d : String × GenerationDoc) :
    List (String × GenerationDoc) → List (String × GenerationDoc)
  | [] => [d]
  | x :: xs => if x.2.created_at ≤ d.2.created_at then d :: x :: xs else x :: insertDesc d xs

/-- Model of MongoDB `sort("created_at", -1)`: insertion sort into
descending `created_at` order. -/
def sortDesc (l : List (String × GenerationDoc)) : List (String × GenerationDoc) :=
  l.foldr insertDesc []

/-- `history` (src/main.py lines 249-258): sort descending by creation
time, apply the limit, project away the payload. -/
def history (db? : Option DB) (limit : Nat) : Except ApiError (List HistoryItem) :=
  match db? with
  | none => .error .storageUnavailable
  | some db => .ok (((sortDesc db.docs).take limit).map stripZip)

/-! ## Spec-side definitions

These definitions follow the wording of the specification (and of the
claims derived from it); they are compared against the code-side
definitions above by the refinement theorems below. -/

/-- The string with only its first character uppercased and the rest
unchanged: the literal reading of the claim's "command name with first
letter capitalized". -/
def upperFirst (s : String) : String :=
  match s.data with
  | [] => ""
  | c :: cs => ⟨c.toUpper :: cs⟩

/-- The fixed handler source-file shape described by the spec's
`renderCommandHandler` contract, parameterized by the handler type
identifier and the message the single behavior sends back. -/
def commandHandlerTemplate (package_name : String) (classIdentifier : String)
    (message : String) : String :=
  "package " ++ package_name ++ ".commands;\n\nimport org.bukkit.command.Command;\nimport org.bukkit.command.CommandExecutor;\nimport org.bukkit.command.CommandSender;\n\npublic class "
    ++ classIdentifier
    ++ " implements CommandExecutor \x7b\n\n    @Override\n    public boolean onCommand(CommandSender sender, Command command, String label, String[] args) \x7b\n        sender.sendMessage(\""
    ++ message
    ++ "\");\n        return true;\n    \x7d\n\x7d\n"

/-- `renderCommandHandler` exactly as the claim states it: identifier is
the command name with first letter capitalized suffixed `Command`, and
the behavior sends the description whenever one is present, else the
default string. -/
def renderCommandHandler_claim (package_name : String) (cmd : CommandSpec) : String :=
  commandHandlerTemplate package_name (upperFirst cmd.name ++ "Command")
    (match cmd.description with
     | some d => d
     | none => "/" ++ cmd.name ++ " executed!")

/-- `renderCommandHandler` as amended: identifier is the command name
with the first character uppercased and the remaining characters
lowercased (Python `str.capitalize`) suffixed `Command`; the behavior
sends the description when one is present and non-empty, else the
default string. -/
def renderCommandHandler_spec (package_name : String) (cmd : CommandSpec) : String :=
  commandHandlerTemplate package_name (pythonCapitalize cmd.name ++ "Command")
    (match cmd.description with
     | some d => if d = "" then "/" ++ cmd.name ++ " executed!" else d
     | none => "/" ++ cmd.name ++ " executed!")

/-- One manifest block, per the claim's wording: for a command with
non-empty trimmed name, a description line only if a (non-empty)
description was provided, the usage line `/<name>`, the permission
string `replix.<name>`, and the fixed permission-denied message; a
command with empty/whitespace-only name contributes no block. -/
def specCommandBlock (cmd : CommandSpec) : List String :=
  if pythonStrip cmd.name = "" then []
  else
    let n := pythonStrip cmd.name
    ["  " ++ n ++ ":"]
    ++ (match cmd.description with
        | some d => if d = "" then [] else ["    description: " ++ d]
        | none => [])
    ++ ["    usage: /" ++ n,
        "    permission: replix." ++ n,
        "    permission-message: You don\x27t have permission to use this command."]

/-- `renderManifest` per the spec's wording: name, fixed version string,
fixed API-version string, main-class reference, description falling back
to the plugin name when empty; when `commands` is non-empty, the command
section holding one block per well-named command. -/
def renderManifest_spec (pluginName : String) (mainClass : String)
    (description : String) (commands : List CommandSpec) : String :=
  String.intercalate "\n"
    (["name: " ++ pluginName,
      "version: 1.0.0",
      "api-version: \x271.20\x27",
      "main: " ++ mainClass,
      "description: " ++ (if description = "" then pluginName else description)]
     ++ (if commands = [] then []
         else "commands:" :: (commands.map specCommandBlock).flatten))
    ++ "\n"

/-- Replace every stored document's ZIP payload (used to state that
`history` does not depend on, nor return, the payload). -/
def mapZips (g : GenerationDoc → List (String × String)) (db : DB) : DB :=
  { docs := db.docs.map fun p => (p.1, { p.2 with zip := g p.2 }) }

/-! ## Helper lemmas -/

theorem mem_dropWhile_iff {p : Char → Bool} {c : Char} (hc : p c = false) :
    ∀ l : List Char, c ∈ l.dropWhile p ↔ c ∈ l := by
  intro l
  induction l with
  | nil => simp
  | cons h t ih =>
    rw [List.dropWhile_cons]
    by_cases hph : p h = true
    · simp only [hph, if_true, ih, List.mem_cons]
      constructor
      · exact Or.inr
      · rintro (rfl | hm)
        · rw [hph] at hc; cases hc
        · exact hm
    · simp [hph]

theorem mem_pythonStrip_iff {c : Char} (hc : Char.isWhitespace c = false) (s : String) :
    c ∈ (pythonStrip s).data ↔ c ∈ s.data := by
  unfold pythonStrip
  simp only [List.mem_reverse, mem_dropWhile_iff hc]

theorem foldl_append_flatten {α β : Type} (f : α → List β) :
    ∀ (l : List α) (init : List β),
      l.foldl (fun acc a => acc ++ f a) init = init ++ (l.map f).flatten := by
  intro l
  induction l with
  | nil => intro init; simp
  | cons a t ih => intro init; simp [List.foldl_cons, ih, List.append_assoc]

theorem mem_insertDesc {y d : String × GenerationDoc} :
    ∀ {l : List (String × GenerationDoc)}, y ∈ insertDesc d l ↔ y = d ∨ y ∈ l := by
  intro l
  induction l with
  | nil => simp [insertDesc]
  | cons x xs ih =>
    rw [insertDesc]
    by_cases h : x.2.created_at ≤ d.2.created_at
    · simp [h]
    · simp only [h, if_false, List.mem_cons, ih]
      tauto

theorem mem_sortDesc {y : String × GenerationDoc} :
    ∀ {l : List (String × GenerationDoc)}, y ∈ sortDesc l ↔ y ∈ l := by
  intro l
  induction l with
  | nil => simp [sortDesc]
  | cons x xs ih =>
    show y ∈ insertDesc x (sortDesc xs) ↔ _
    rw [mem_insertDesc, List.mem_cons, ih]

theorem sorted_insertDesc {d : String × GenerationDoc} :
    ∀ {l : List (String × GenerationDoc)},
      l.Pairwise (fun a b => b.2.created_at ≤ a.2.created_at) →
      (insertDesc d l).Pairwise (fun a b => b.2.created_at ≤ a.2.created_at) := by
  intro l
  induction l with
  | nil => intro _; simp [insertDesc]
  | cons x xs ih =>
    intro hp
    rw [List.pairwise_cons] at hp
    rw [insertDesc]
    by_cases h : x.2.created_at ≤ d.2.created_at
    · simp only [h, if_true]
      refine List.Pairwise.cons ?_ (List.Pairwise.cons hp.1 hp.2)
      intro y hy
      rcases List.mem_cons.mp hy with rfl | hy
      · exact h
      · exact le_trans (hp.1 y hy) h
    · simp only [h, if_false]
      refine List.Pairwise.cons ?_ (ih hp.2)
      intro y hy
      rcases mem_insertDesc.mp hy with rfl | hy
      · exact le_of_not_le h
      · exact hp.1 y hy

theorem sorted_sortDesc :
    ∀ (l : List (String × GenerationDoc)),
      (sortDesc l).Pairwise (fun a b => b.2.created_at ≤ a.2.created_at) := by
  intro l
  induction l with
  | nil => simp [sortDesc]
  | cons x xs ih => exact sorted_insertDesc ih

theorem pairwise_insertDesc_of_symm {S : (String × GenerationDoc) → (String × GenerationDoc) → Prop}
    (hs : ∀ a b, S a b → S b a) {d : String × GenerationDoc} :
    ∀ {l : List (String × GenerationDoc)},
      (d :: l).Pairwise S → (insertDesc d l).Pairwise S := by
  intro l
  induction l with
  | nil => intro h; exact h
  | cons x xs ih =>
    intro hp
    rw [List.pairwise_cons] at hp
    have hdx : S d x := hp.1 x (List.mem_cons_self x xs)
    have hdxs : ∀ y ∈ xs, S d y := fun y hy => hp.1 y (List.mem_cons_of_mem x hy)
    rw [List.pairwise_cons] at hp
    rw [insertDesc]
    by_cases h : x.2.created_at ≤ d.2.created_at
    · simp only [h, if_true]
      refine List.Pairwise.cons ?_ (List.Pairwise.cons hp.2.1 hp.2.2)
      intro y hy
      rcases List.mem_cons.mp hy with rfl | hy
      · exact hdx
      · exact hdxs y hy
    · simp only [h, if_false]
      refine List.Pairwise.cons ?_ (ih (List.Pairwise.cons hdxs hp.2.2))
      intro y hy
      rcases mem_insertDesc.mp hy with rfl | hy
      · exact hs _ _ hdx
      · exact hp.2.1 y hy

theorem pairwise_sortDesc_of_symm {S : (String × GenerationDoc) → (String × GenerationDoc) → Prop}
    (hs : ∀ a b, S a b → S b a) :
    ∀ {l : List (String × GenerationDoc)}, l.Pairwise S → (sortDesc l).Pairwise S := by
  intro l
  induction l with
  | nil => intro _; simp [sortDesc]
  | cons x xs ih =>
    intro hp
    rw [List.pairwise_cons] at hp
    refine pairwise_insertDesc_of_symm hs (List.Pairwise.cons ?_ (ih hp.2))
    intro y hy
    exact hp.1 y (mem_sortDesc.mp hy)

theorem insertDesc_map_zip (g : GenerationDoc → List (String × String)) (d : String × GenerationDoc) :
    ∀ l : List (String × GenerationDoc),
      insertDesc (d.1, { d.2 with zip := g d.2 }) (l.map fun p => (p.1, { p.2 with zip := g p.2 }))
        = (insertDesc d l).map fun p => (p.1, { p.2 with zip := g p.2 }) := by
  intro l
  induction l with
  | nil => simp [insertDesc]
  | cons x xs ih =>
    simp only [List.map_cons, insertDesc]
    by_cases h : x.2.created_at ≤ d.2.created_at
    · simp [h]
    · simp [h, ih]

theorem sortDesc_map_zip (g : GenerationDoc → List (String × String)) :
    ∀ l : List (String × GenerationDoc),
      sortDesc (l.map fun p => (p.1, { p.2 with zip := g p.2 }))
        = (sortDesc l).map fun p => (p.1, { p.2 with zip := g p.2 }) := by
  intro l
  induction l with
  | nil => simp [sortDesc]
  | cons x xs ih =>
    show insertDesc _ (sortDesc (xs.map _)) = _
    rw [ih]
    exact insertDesc_map_zip g x (sortDesc xs)

theorem mainPath_regroup (D : String) :
    "src/main/java/" ++ D ++ "/" ++ "Main" ++ ".java"
      = "src/main/java/" ++ D ++ "/Main.java" := by
  simp only [String.append_assoc]
  rw [show ("/" : String) ++ ("Main" ++ ".java") = "/Main.java" from by decide]

theorem handlerPath_regroup (D C : String) :
    "src/main/java/" ++ D ++ "/" ++ "commands/" ++ C ++ "Command.java"
      = "src/main/java/" ++ D ++ "/commands/" ++ C ++ "Command.java" := by
  simp only [String.append_assoc]
  rw [← String.append_assoc "/" "commands/" (C ++ "Command.java"),
      show ("/" : String) ++ "commands/" = "/commands/" from by decide]

/-! ## Concrete sample inputs used by witnesses and counterexamples -/

/-- A syntactically valid `ObjectId` string: 24 hexadecimal characters. -/
def oid24 : String := "507f1f77bcf86cd799439011"

/-- A command whose name is whitespace-only (non-empty but empty after strip). -/
def cmdWs : CommandSpec := { name := " ", usage := none, description := none }

/-- A fully well-formed request with one well-named command. -/
def reqHello : GenerateRequest :=
  { plugin_name := "My Plugin", package_name := "com.example", description := "A plugin",
    api := "spigot", commands := [{ name := "hello", usage := none, description := some "Say hello" }] }

/-- A valid request with no commands and the plugin name `"My Plugin"`. -/
def reqMyPlugin : GenerateRequest :=
  { plugin_name := "My Plugin", package_name := "com.example", description := "",
    api := "spigot", commands := [] }

/-- A request whose package name lacks the dot separator. -/
def reqBadPkg : GenerateRequest :=
  { plugin_name := "P", package_name := "noseparator", description := "",
    api := "spigot", commands := [] }

/-- A request whose package name carries leading whitespace (still accepted:
it contains a dot). -/
def reqPadPkg : GenerateRequest :=
  { plugin_name := "P", package_name := " com.example", description := "",
    api := "spigot", commands := [] }

/-- A stored document with a given plugin name and creation time. -/
def docSample (nm : String) (t : Nat) : GenerationDoc :=
  { plugin_name := nm, package_name := "com.example", description := "", api := "spigot",
    commands := [], files := ["plugin.yml"], archive_size := 1,
    created_at := t, updated_at := t, zip := [("plugin.yml", "x")] }

/-- A three-record store with pairwise distinct creation times. -/
def dbSample : DB :=
  { docs := [("aaaaaaaaaaaaaaaaaaaaaaaa", docSample "A" 1),
             ("bbbbbbbbbbbbbbbbbbbbbbbb", docSample "B" 3),
             ("cccccccccccccccccccccccc", docSample "C" 2)] }

/-! ## Claims -/

/-- C1 counterexample: a command with the whitespace-only name `" "` is
NOT skipped in the rendered main entry source — `_main_java` filters
commands by raw-name truthiness (`if c.name`), so `" "` yields an import
line (and changes the rendered source), contradicting "no import or
registration line in the rendered main entry source". -/
theorem C1_counterexample :
    mainImportLines "com.example" [{ name := " ", usage := none, description := none }]
        = ["import com.example.commands. Command;"]
    ∧ _main_java "com.example" "Main" "" [{ name := " ", usage := none, description := none }]
        ≠ _main_java "com.example" "Main" "" [] := by
  constructor
  · decide
  · decide

/-- C1 (amended): a command whose name strips to empty produces no block
in the rendered manifest and no handler entry in the archive; it is
omitted from the main entry's import/registration lines only when its
name is the empty string — a whitespace-only (non-empty) name still
produces an import line in the rendered main entry source. -/
theorem C1_whitespace_command (pkg cls desc : String) (c : CommandSpec)
    (pre post : List CommandSpec) (hws : pythonStrip c.name = "") :
    pluginYmlCmdLines c = []
    ∧ commandEntries pkg (pre ++ c :: post) = commandEntries pkg (pre ++ post)
    ∧ (c.name = "" →
        _main_java pkg cls desc (pre ++ c :: post) = _main_java pkg cls desc (pre ++ post))
    ∧ (c.name ≠ "" →
        mainImportLines pkg (pre ++ c :: post) ≠ mainImportLines pkg (pre ++ post)) := by
  refine ⟨?_, ?_, ?_, ?_⟩
  · simp [pluginYmlCmdLines, hws]
  · have hf : (pythonStrip c.name != "") = false := by simp [hws]
    simp [commandEntries, List.filter_append, List.filter_cons, hf]
  · intro h0
    have hf : (c.name != "") = false := by simp [h0]
    simp [_main_java, mainImportLines, mainRegisterLines, List.filter_append,
          List.filter_cons, hf]
  · intro hne heq
    have hf : (c.name != "") = true := by simp [hne]
    have hlen := congrArg List.length heq
    simp [mainImportLines, List.filter_append, List.filter_cons, hf] at hlen

/-- C1 witness: the amended theorem at the concrete whitespace command. -/
theorem C1_witness :
    pluginYmlCmdLines cmdWs = []
    ∧ commandEntries "com.example" [cmdWs] = commandEntries "com.example" []
    ∧ mainImportLines "com.example" [cmdWs] ≠ mainImportLines "com.example" [] :=
  ⟨(C1_whitespace_command "com.example" "Main" "" cmdWs [] [] (by decide)).1,
   (C1_whitespace_command "com.example" "Main" "" cmdWs [] [] (by decide)).2.1,
   (C1_whitespace_command "com.example" "Main" "" cmdWs [] [] (by decide)).2.2.2 (by decide)⟩

/-- C3: `build_plugin_zip` rejects with the validation error exactly when
the package name is empty or contains no `'.'` (the `.strip()` performed
by the code neither removes a dot nor makes a blank-only name
acceptable), the rejection produces no archive entries (an `error` result
carries none), and `generate_plugin` then returns the validation error
without inserting any record (no updated collection is produced). -/
theorem C3_package_validation (req : GenerateRequest) (db : DB) (oid : String) (now : Nat) :
    (build_plugin_zip req = .error .validation
       ↔ (req.package_name = "" ∨ '.' ∉ req.package_name.data))
    ∧ ((req.package_name = "" ∨ '.' ∉ req.package_name.data) →
        generate_plugin (some db) oid now req = .error .validation) := by
  have hmem := mem_pythonStrip_iff (c := '.') (by decide) req.package_name
  have key : (pythonStrip req.package_name = "" ∨ '.' ∉ (pythonStrip req.package_name).data)
      ↔ (req.package_name = "" ∨ '.' ∉ req.package_name.data) := by
    constructor
    · rintro (he | hn)
      · right
        intro hc
        rw [← hmem, he] at hc
        simp at hc
      · right
        intro hc
        exact hn (hmem.mpr hc)
    · rintro (he | hn)
      · rw [he]
        left
        rfl
      · right
        intro hc
        exact hn (hmem.mp hc)
  have hbuild : build_plugin_zip req = .error .validation
      ↔ (pythonStrip req.package_name = "" ∨ '.' ∉ (pythonStrip req.package_name).data) := by
    by_cases hc : (pythonStrip req.package_name = "" ∨ '.' ∉ (pythonStrip req.package_name).data)
    · simp [build_plugin_zip, hc]
    · simp [build_plugin_zip, hc]
  refine ⟨hbuild.trans key, fun hbad => ?_⟩
  have hb : build_plugin_zip req = .error .validation := hbuild.mpr (key.mpr hbad)
  simp [generate_plugin, hb]

/-- C3 witness: `"noseparator"` is rejected with the validation error and
persists nothing; `"com.example"` is not rejected. -/
theorem C3_witness :
    build_plugin_zip reqBadPkg = .error .validation
    ∧ generate_plugin (some { docs := [] }) oid24 0 reqBadPkg = .error .validation
    ∧ build_plugin_zip reqMyPlugin ≠ .error .validation :=
  ⟨(C3_package_validation reqBadPkg { docs := [] } oid24 0).1.mpr (by decide),
   (C3_package_validation reqBadPkg { docs := [] } oid24 0).2 (by decide),
   fun h => absurd ((C3_package_validation reqMyPlugin { docs := [] } oid24 0).1.mp h) (by decide)⟩

/-- C4: for every request the archive builder accepts, the produced
archive consists of exactly the manifest, the main entry, one handler per
command with non-empty stripped name (in input order), the build
descriptor and the ignore file — `4 + N` entries in that order. -/
theorem C4_archive_entries (req : GenerateRequest) (es : List (String × String))
    (h : build_plugin_zip req = .ok es) :
    es.map Prod.fst
      = "plugin.yml"
        :: ("src/main/java/" ++ dotsToSlashes (pythonStrip req.package_name) ++ "/" ++ "Main" ++ ".java")
        :: (((req.commands.filter fun c => pythonStrip c.name != "").map fun c =>
              "src/main/java/" ++ dotsToSlashes (pythonStrip req.package_name) ++ "/"
                ++ "commands/" ++ pythonCapitalize (pythonStrip c.name) ++ "Command.java")
            ++ ["pom.xml", ".gitignore"])
    ∧ es.length = 4 + (req.commands.filter fun c => pythonStrip c.name != "").length := by
  have hok : es = zipGeneratedEntries req ++ fixedEntries req := by
    by_cases hc : (pythonStrip req.package_name = "" ∨ '.' ∉ (pythonStrip req.package_name).data)
    · simp [build_plugin_zip, hc] at h
    · simp [build_plugin_zip, hc] at h
      exact h.symm
  subst hok
  have hguard :
      (if req.commands = [] then ([] : List (String × String))
       else commandEntries (pythonStrip req.package_name) req.commands)
        = commandEntries (pythonStrip req.package_name) req.commands := by
    by_cases hc : req.commands = []
    · simp [hc, commandEntries]
    · simp [hc]
  constructor
  · simp only [zipGeneratedEntries, fixedEntries]
    rw [hguard]
    simp [commandEntries, List.map_map, Function.comp]
  · simp only [zipGeneratedEntries, fixedEntries]
    rw [hguard]
    simp only [commandEntries, List.length_append, List.length_cons, List.length_map,
               List.length_nil]
    omega

/-- C4 witness: the entry count at the concrete one-command request. -/
theorem C4_witness :
    (zipGeneratedEntries reqHello ++ fixedEntries reqHello).length
      = 4 + (reqHello.commands.filter fun c => pythonStrip c.name != "").length :=
  (C4_archive_entries reqHello (zipGeneratedEntries reqHello ++ fixedEntries reqHello)
    (by rfl)).2

set_option maxRecDepth 4096 in
/-- C5 counterexample: for the command name `"myCmd"` the generated
handler identifier is `MycmdCommand` (Python `str.capitalize` lowercases
the tail), not `MyCmdCommand` as "the command name with first letter
capitalized" states. -/
theorem C5_counterexample :
    _command_java "com.example" { name := "myCmd", usage := none, description := none }
      ≠ renderCommandHandler_claim "com.example" { name := "myCmd", usage := none, description := none } := by
  decide

/-- C5 (amended): `renderCommandHandler` produces the handler source with
type identifier the command name with first character uppercased and the
remaining characters lowercased (Python `str.capitalize`) suffixed
`Command`; its behavior sends the description when present and
non-empty, else `"/<name> executed!"`, and reports success. -/
theorem C5_render_command_handler (package_name : String) (cmd : CommandSpec) :
    _command_java package_name cmd = renderCommandHandler_spec package_name cmd := by
  have hm : pythonOr cmd.description ("/" ++ cmd.name ++ " executed!")
      = (match cmd.description with
         | some d => if d = "" then "/" ++ cmd.name ++ " executed!" else d
         | none => "/" ++ cmd.name ++ " executed!") := by
    cases cmd.description with
    | none => rfl
    | some d =>
      by_cases hd : d = "" <;> simp [pythonOr, hd]
  simp only [_command_java, renderCommandHandler_spec, commandHandlerTemplate]
  rw [hm]

/-- C7: looking up a well-formed identifier with no record yields the
not-found error; a malformed identifier yields the distinct invalid-id
error, and that outcome is independent of the collection contents. -/
theorem C7_lookup_errors (db db2 : DB) (gid : String) :
    (isValidObjectId gid = true → db.docs.lookup gid = none →
        download_plugin (some db) gid = .error .notFound)
    ∧ (isValidObjectId gid = false →
        download_plugin (some db) gid = .error .invalidId
        ∧ download_plugin (some db) gid = download_plugin (some db2) gid)
    ∧ ApiError.invalidId ≠ ApiError.notFound := by
  refine ⟨?_, ?_, by decide⟩
  · intro hid hlk
    simp [download_plugin, hid, hlk]
  · intro hid
    constructor <;> simp [download_plugin, hid]

/-- C7 witness: a valid unknown id on the empty store is not-found; a
malformed id is invalid-id. -/
theorem C7_witness :
    download_plugin (some { docs := [] }) oid24 = .error .notFound
    ∧ download_plugin (some { docs := [] }) "abc" = .error .invalidId :=
  ⟨(C7_lookup_errors { docs := [] } { docs := [] } oid24).1 (by decide) rfl,
   ((C7_lookup_errors { docs := [] } { docs := [] } "abc").2.1 (by decide)).1⟩

/-- C10: `generate_plugin` checks storage availability before package
validation, so a malformed package name with unavailable storage yields
the storage-unavailable server error, not the validation client error. -/
theorem C10_storage_before_validation (req : GenerateRequest) (oid : String) (now : Nat)
    (_hbad : req.package_name = "" ∨ '.' ∉ req.package_name.data) :
    generate_plugin none oid now req = .error .storageUnavailable
    ∧ ApiError.storageUnavailable ≠ ApiError.validation :=
  ⟨rfl, by decide⟩

/-- C2 counterexample: the request with package name `" com.example"`
(leading whitespace, still accepted since it contains a dot) is accepted
by Generate and persisted, but the stored `files` list uses the raw
package name (`src/main/java/ com/example/Main.java`) while the archive
path uses the stripped one — the stored list differs from the archive's
generated entry paths. -/
theorem C2_counterexample :
    generate_plugin (some { docs := [] }) oid24 0 reqPadPkg
      = .ok ({ id := oid24,
               archive_size := archiveSize (zipGeneratedEntries reqPadPkg ++ fixedEntries reqPadPkg),
               download_url := "/api/download/" ++ oid24,
               message := "Plugin generated successfully" },
             { docs := [(oid24, generationDoc reqPadPkg 0
                 (zipGeneratedEntries reqPadPkg ++ fixedEntries reqPadPkg))] })
    ∧ (generationDoc reqPadPkg 0 (zipGeneratedEntries reqPadPkg ++ fixedEntries reqPadPkg)).files
        ≠ (zipGeneratedEntries reqPadPkg).map Prod.fst := by
  constructor
  · rfl
  · decide

/-- C2 (amended): the stored `files` list equals the archive's generated
entry paths (manifest, main entry, one handler per included command, in
order) whenever the package name and every command name carry no
surrounding whitespace (i.e. are fixed by `strip`); with whitespace they
diverge, as the counterexample shows. -/
theorem C2_files_match_archive (req : GenerateRequest)
    (hpkg : pythonStrip req.package_name = req.package_name)
    (hcmds : ∀ c ∈ req.commands, pythonStrip c.name = c.name) :
    files_list req = (zipGeneratedEntries req).map Prod.fst := by
  simp only [files_list, zipGeneratedEntries, hpkg, List.map_cons]
  rw [mainPath_regroup]
  by_cases hc : req.commands = []
  · simp [hc]
  · simp only [hc, if_false]
    have hfilter :
        (req.commands.filter fun c => c.name != "")
          = (req.commands.filter fun c => pythonStrip c.name != "") := by
      refine List.filter_congr ?_
      intro c hcmem
      rw [hcmds c hcmem]
    simp only [List.cons_append, List.nil_append, commandEntries, List.map_map]
    refine congrArg (fun t => "plugin.yml" :: _ :: t) ?_
    rw [hfilter]
    refine List.map_congr_left ?_
    intro c hcmem
    have hcname := hcmds c (List.mem_of_mem_filter hcmem)
    simp only [Function.comp]
    rw [hcname, handlerPath_regroup]

/-- C2 witness: the amended theorem at the concrete whitespace-free
request with one command. -/
theorem C2_witness :
    files_list reqHello = (zipGeneratedEntries reqHello).map Prod.fst :=
  C2_files_match_archive reqHello (by decide) (by decide)

/-- C6: generating a plugin and immediately downloading it by the
assigned identifier returns exactly the archive entries (payload) that
Generate produced — the store round-trip is the identity — with the
attachment filename the stored plugin name lowercased, spaces replaced
by hyphens, suffixed `.zip`. -/
theorem C6_download_roundtrip (db : DB) (req : GenerateRequest) (oid : String) (now : Nat)
    (es : List (String × String))
    (hid : isValidObjectId oid = true)
    (hb : build_plugin_zip req = .ok es) :
    generate_plugin (some db) oid now req
      = .ok ({ id := oid, archive_size := archiveSize es,
               download_url := "/api/download/" ++ oid,
               message := "Plugin generated successfully" },
             { docs := (oid, generationDoc req now es) :: db.docs })
    ∧ download_plugin (some { docs := (oid, generationDoc req now es) :: db.docs }) oid
      = .ok (es, spacesToHyphens (pythonLower req.plugin_name) ++ ".zip") := by
  have hes : es = zipGeneratedEntries req ++ fixedEntries req := by
    by_cases hc : (pythonStrip req.package_name = "" ∨ '.' ∉ (pythonStrip req.package_name).data)
    · simp [build_plugin_zip, hc] at hb
    · simp [build_plugin_zip, hc] at hb
      exact hb.symm
  have hne : es ≠ [] := by
    rw [hes]
    simp [zipGeneratedEntries]
  constructor
  · simp [generate_plugin, hb]
  · have hlk : List.lookup oid ((oid, generationDoc req now es) :: db.docs)
        = some (generationDoc req now es) := by
      simp [List.lookup_cons]
    simp [download_plugin, hid, hlk, generationDoc, hne]

/-- C6 witness: the round-trip at a concrete request whose plugin name
`"My Plugin"` slugifies to the filename `my-plugin.zip`. -/
theorem C6_witness :
    download_plugin (some { docs := [(oid24, generationDoc reqMyPlugin 0
        (zipGeneratedEntries reqMyPlugin ++ fixedEntries reqMyPlugin))] }) oid24
      = .ok (zipGeneratedEntries reqMyPlugin ++ fixedEntries reqMyPlugin,
             spacesToHyphens (pythonLower reqMyPlugin.plugin_name) ++ ".zip")
    ∧ spacesToHyphens (pythonLower "My Plugin") ++ ".zip" = "my-plugin.zip" :=
  ⟨(C6_download_roundtrip { docs := [] } reqMyPlugin oid24 0
      (zipGeneratedEntries reqMyPlugin ++ fixedEntries reqMyPlugin) (by decide) rfl).2,
   by decide⟩

/-- C8: when all stored records have distinct creation times (as the
claim's "strictly" presupposes), `history` returns at most `limit`
items, strictly descending by creation time, and its result neither
contains nor depends on the archive payloads (replacing every stored ZIP
leaves the response unchanged, and the returned items carry no payload
field). -/
theorem C8_history_limit_order (db : DB) (n : Nat)
    (hdis : db.docs.Pairwise fun a b => a.2.created_at ≠ b.2.created_at)
    (g : GenerationDoc → List (String × String)) :
    ∀ items, history (some db) n = .ok items →
      items.length ≤ n
      ∧ items.Pairwise (fun a b => b.created_at < a.created_at)
      ∧ history (some (mapZips g db)) n = .ok items := by
  intro items hitems
  simp only [history, Except.ok.injEq] at hitems
  subst hitems
  refine ⟨?_, ?_, ?_⟩
  · rw [List.length_map, List.length_take]
    exact Nat.min_le_left n _
  · have hge := sorted_sortDesc db.docs
    have hne : (sortDesc db.docs).Pairwise (fun a b => a.2.created_at ≠ b.2.created_at) :=
      pairwise_sortDesc_of_symm (fun a b h => h.symm) hdis
    have hgt : (sortDesc db.docs).Pairwise (fun a b => b.2.created_at < a.2.created_at) :=
      (hge.and hne).imp fun h => lt_of_le_of_ne h.1 (Ne.symm h.2)
    have htake := List.Pairwise.sublist (List.take_sublist n (sortDesc db.docs)) hgt
    rw [List.pairwise_map]
    exact htake
  · simp only [history, mapZips, Except.ok.injEq]
    rw [sortDesc_map_zip, ← List.map_take, List.map_map]
    exact List.map_congr_left fun p _ => rfl

/-- C8 witness: a three-record store with distinct creation times,
limit 2, and the payload-erasing replacement. -/
theorem C8_witness :
    (((sortDesc dbSample.docs).take 2).map stripZip).length ≤ 2
    ∧ (((sortDesc dbSample.docs).take 2).map stripZip).Pairwise
        (fun a b => b.created_at < a.created_at)
    ∧ history (some (mapZips (fun _ => []) dbSample)) 2
        = .ok (((sortDesc dbSample.docs).take 2).map stripZip) :=
  C8_history_limit_order dbSample 2 (by decide) (fun _ => [])
    (((sortDesc dbSample.docs).take 2).map stripZip) rfl

/-- C9: the rendered manifest's description line falls back to the
plugin name when the description is empty, and for non-empty `commands`
it appends one block per command with non-empty trimmed name — with a
description line only when a non-empty description was provided, the
usage line `/<name>`, the permission `replix.<name>` and the fixed
permission-denied message — exactly as the spec-side renderer states. -/
theorem C9_render_manifest (name mc desc : String) (cmds : List CommandSpec) :
    _plugin_yml name mc desc cmds = renderManifest_spec name mc desc cmds := by
  have hblocks : cmds.map pluginYmlCmdLines = cmds.map specCommandBlock :=
    List.map_congr_left fun c _ => rfl
  simp only [_plugin_yml, renderManifest_spec]
  by_cases hc : cmds = []
  · simp [hc]
  · rw [if_neg hc, if_neg hc, foldl_append_flatten, hblocks]
    simp [List.append_assoc]

/-- C10 witness: the malformed package `"noseparator"` with no database
handle yields the storage-unavailable error. -/
theorem C10_witness :
    generate_plugin none oid24 0 reqBadPkg = .error .storageUnavailable
    ∧ ApiError.storageUnavailable ≠ ApiError.validation :=
  C10_storage_before_validation reqBadPkg oid24 0 (by decide)
